import Mathlib

/-!
Shallow embedding of the google-maps-scraper core:
the Google Maps discovery/extraction loop
(src/slade_digital_scrapers/gmaps_scraper/scraper.py),
the persistence repositories
(src/slade_digital_scrapers/infrastructure/models/entities/repository.py and
 src/slade_digital_scrapers/infrastructure/models/scraper_hisotry/repository.py),
and the API orchestrator
(src/slade_digital_scrapers/infrastructure/api/api.py).

Python dict-shaped payloads are modelled as structures with optional fields;
a list element that is a falsy value (None or an empty dict) is modelled as
an Option whose none stands for the falsy element.  PostgreSQL execute_values
with INSERT ... ON CONFLICT DO UPDATE is modelled per its documented
semantics: within one statement, two proposed rows that conflict on the same
key make the statement fail ("ON CONFLICT DO UPDATE command cannot affect row
a second time"); NULL key values never conflict.
-/

namespace GMaps

/-- Python scalar values that flow through the repository payloads. -/
inductive PyVal where
  | vNone : PyVal
  | vInt (n : Int) : PyVal
  | vStr (s : String) : PyVal
deriving DecidableEq, Repr

/-- Python str() on the modelled scalar domain. -/
def pyToString : PyVal → String
  | .vNone => "None"
  | .vInt n => toString n
  | .vStr s => s

/-- Whitespace stripped by Python int() around a numeric string. -/
def isPySpace (c : Char) : Bool :=
  c == ' ' || c == '\t' || c == '\n' || c == '\r'

/-- Value of a digit string, most significant first. -/
def digitsToNat (cs : List Char) : Nat :=
  cs.foldl (fun acc c => acc * 10 + (c.toNat - ('0').toNat)) 0

/-- Parser core of Python int(s): an optional sign then one or more decimal
digits; anything else raises ValueError (modelled none). -/
def parsePyIntChars : List Char → Option Int
  | [] => none
  | '-' :: rest =>
    if rest ≠ [] ∧ rest.all Char.isDigit then some (-(digitsToNat rest : Int))
    else none
  | '+' :: rest =>
    if rest ≠ [] ∧ rest.all Char.isDigit then some (digitsToNat rest : Int)
    else none
  | cs =>
    if cs.all Char.isDigit then some (digitsToNat cs : Int) else none

/-- Python int(s) on a string: surrounding whitespace is ignored, then an
optional sign and decimal digits. -/
def parsePyInt (s : String) : Option Int :=
  parsePyIntChars
    (((s.data.dropWhile isPySpace).reverse.dropWhile isPySpace).reverse)

/-- entities/repository.py _coerce_int: None passes through as None, int is
kept, and int(value) failures (TypeError/ValueError) are mapped to None. -/
def _coerce_int : PyVal → Option Int
  | .vNone => none
  | .vInt n => some n
  | .vStr s => parsePyInt s

/-- A scraper payload dict as consumed by entities/repository.py _to_row
(record.get on each key; a missing key and an explicit None are
indistinguishable to .get, except for rating-like fields modelled as PyVal). -/
structure EntityRecord where
  name : Option String := none
  place_id : Option String := none
  address : Option String := none
  rating : PyVal := .vNone
  reviews_count : PyVal := .vNone
  categories : Option (List String) := none
  entity_categories : Option (List String) := none
  website : Option String := none
  phone : Option String := none
  link : Option String := none
deriving DecidableEq, Repr

/-- Python `a or b` for the category lists (None and [] are falsy). -/
def pyOrList : Option (List String) → Option (List String) → Option (List String)
  | some l, b => if l.isEmpty then b else some l
  | none, b => b

/-- entities/repository.py _clean_categories: falsy input gives None; falsy
items are dropped, the rest stripped; an empty result is None. -/
def _clean_categories : Option (List String) → Option (List String)
  | none => none
  | some raw =>
    if raw.isEmpty then none
    else
      let items := (raw.filter (fun item => item ≠ "")).map String.trim
      if items.isEmpty then none else some items

/-- One row of the entities table in ENTITY_COLUMNS order. -/
structure Row where
  name : Option String
  place_id : Option String
  address : Option String
  google_rating : Option Int
  review_count : Option Int
  entity_categories : Option (List String)
  website : Option String
  phone : Option String
  google_link : Option String
deriving DecidableEq, Repr

/-- entities/repository.py _to_row. -/
def _to_row (record : EntityRecord) : Row where
  name := record.name
  place_id := record.place_id
  address := record.address
  google_rating := _coerce_int record.rating
  review_count := _coerce_int record.reviews_count
  entity_categories := _clean_categories (pyOrList record.categories record.entity_categories)
  website := record.website
  phone := record.phone
  google_link := record.link

/-- The entities table: rows with a non-null place_id, associated by that key
(the unique constraint), and rows whose place_id is NULL (NULLs never
conflict, so several may accumulate). -/
structure EntitiesTable where
  keyed : List (String × Row) := []
  unkeyed : List Row := []
deriving DecidableEq, Repr

/-- Insert-or-replace one keyed row (the ON CONFLICT DO UPDATE SET clause
overwrites every non-key column, which for an equal key is a full row
replacement). -/
def upsertRow (keyed : List (String × Row)) (k : String) (row : Row) :
    List (String × Row) :=
  if keyed.any (fun p => p.1 = k) then
    keyed.map (fun p => if p.1 = k then (k, row) else p)
  else keyed ++ [(k, row)]

/-- One INSERT ... ON CONFLICT DO UPDATE statement over a page of rows.
`affected` collects the keys already touched by this statement: PostgreSQL
rejects a second proposed row for the same key within one command. -/
def applyStmtRows : EntitiesTable → List String → List Row →
    Except String EntitiesTable
  | tbl, _, [] => .ok tbl
  | tbl, affected, row :: rest =>
    match row.place_id with
    | none =>
      applyStmtRows { tbl with unkeyed := tbl.unkeyed ++ [row] } affected rest
    | some k =>
      if affected.contains k then
        .error "ON CONFLICT DO UPDATE command cannot affect row a second time"
      else
        applyStmtRows { tbl with keyed := upsertRow tbl.keyed k row }
          (k :: affected) rest

/-- Structural worker for chunksOf; the fuel argument only serves structural
recursion and never runs out when it starts at the list length. -/
def chunksOfF : Nat → Nat → List α → List (List α)
  | _, _, [] => []
  | 0, _, _ :: _ => []
  | fuel + 1, n, x :: xs => (x :: xs.take (n - 1)) :: chunksOfF fuel n (xs.drop (n - 1))

/-- execute_values splits the row list into pages of at most page_size rows,
one statement per page. -/
def chunksOf (n : Nat) (l : List α) : List (List α) :=
  chunksOfF l.length n l

/-- Run the statements of one transaction in order; a statement failure
aborts the transaction before conn.commit(), so the table is unchanged and
the psycopg2 error propagates. -/
def runStatements (tbl : EntitiesTable) : List (List Row) →
    Except String EntitiesTable
  | [] => .ok tbl
  | page :: rest =>
    match applyStmtRows tbl [] page with
    | .error e => .error e
    | .ok tbl' => runStatements tbl' rest

/-- entities/repository.py upsert_entities: keep truthy records, map them
through _to_row, short-circuit on an empty row list, otherwise run one
transaction of paged statements and report the attempted row count. -/
def upsert_entities (db : EntitiesTable) (records : List (Option EntityRecord))
    (page_size : Nat) : Except String (EntitiesTable × Nat) :=
  let rows := (records.filterMap id).map _to_row
  if rows.isEmpty then .ok (db, 0)
  else
    match runStatements db (chunksOf page_size rows) with
    | .error e => .error e
    | .ok db' => .ok (db', rows.length)

/-! scraper_hisotry/repository.py upsert_scrape_history -/

namespace Hist

/-- A scrape-history payload dict.  source distinguishes a missing key (none,
so .get falls back to the "" default) from a present value (str() applied). -/
structure HistRecord where
  source : Option PyVal := none
  search_key : Option String := none
  location_key : Option String := none
  results_scraped : PyVal := .vNone
deriving DecidableEq, Repr

/-- str(record.get("source", "")). -/
def sourceStr (record : HistRecord) : String :=
  match record.source with
  | none => ""
  | some v => pyToString v

/-- One row of the scrape_history table in SCRAPE_HISTORY_COLUMNS order. -/
structure HistRow where
  source : String
  search_key : Option String
  location_key : Option String
  results_scraped : Option Int
deriving DecidableEq, Repr

/-- scraper_hisotry/repository.py _to_row: results_scraped is left None when
absent, otherwise int() with TypeError/ValueError mapped to None. -/
def _to_row (record : HistRecord) : HistRow where
  source := sourceStr record
  search_key := record.search_key
  location_key := record.location_key
  results_scraped := _coerce_int record.results_scraped

/-- Python dict insertion keyed by source: a repeated key keeps its original
position but takes the new value (seen[source] = record). -/
def insertSeen (seen : List (String × HistRecord)) (k : String)
    (r : HistRecord) : List (String × HistRecord) :=
  if seen.any (fun p => p.1 = k) then
    seen.map (fun p => if p.1 = k then (k, r) else p)
  else seen ++ [(k, r)]

/-- The step body of the dedup pass: falsy records and records whose
stringified source is empty are skipped; the rest enter the seen dict. -/
def seenStep (seen : List (String × HistRecord)) :
    Option HistRecord → List (String × HistRecord)
  | none => seen
  | some r =>
    let s := sourceStr r
    if s = "" then seen else insertSeen seen s r

/-- The dedup pass of upsert_scrape_history over the incoming records. -/
def buildSeen (records : List (Option HistRecord)) :
    List (String × HistRecord) :=
  records.foldl seenStep []

/-- The scrape_history table keyed by its unique source column. -/
structure HistTable where
  rows : List (String × HistRow) := []
deriving DecidableEq, Repr

/-- Insert-or-replace under the source unique constraint (ON CONFLICT
(source) DO UPDATE overwrites every non-key column). -/
def upsertHistRow (tbl : HistTable) (row : HistRow) : HistTable :=
  if tbl.rows.any (fun p => p.1 = row.source) then
    ⟨tbl.rows.map (fun p => if p.1 = row.source then (row.source, row) else p)⟩
  else ⟨tbl.rows ++ [(row.source, row)]⟩

/-- Result of one upsert_scrape_history call; wrote records whether the
db_connection block was entered at all (it is skipped when seen is empty). -/
structure HistResult where
  db : HistTable
  count : Nat
  wrote : Bool
deriving DecidableEq, Repr

/-- scraper_hisotry/repository.py upsert_scrape_history.  After the dedup
pass the statement rows all carry distinct non-empty sources, so the paged
INSERT ... ON CONFLICT statements never hit the same key twice and the write
is a plain fold of row upserts. -/
def upsert_scrape_history (db : HistTable)
    (records : List (Option HistRecord)) : HistResult :=
  let seen := buildSeen records
  if seen.isEmpty then ⟨db, 0, false⟩
  else
    let rows := seen.map (fun p => _to_row p.2)
    ⟨rows.foldl upsertHistRow db, rows.length, true⟩

end Hist

/-! gmaps_scraper/scraper.py: the scrolling discovery loop, modelled over a
feed trace.  Cycle i of the loop observes feed i: the href list the link
locator returns after the scroll, the scrollHeight read after the scroll,
and whether the end-of-list marker is present. -/

/-- What one scroll cycle observes on the page. -/
structure Obs where
  links : List String
  height : Nat
  endMarker : Bool
deriving DecidableEq, Repr

/-- Mutable state of the scroll loop: the deduplicated place_links set in
insertion order, last_height, and scroll_attempts_no_new. -/
structure LoopState where
  placeLinks : List String
  lastHeight : Nat
  stagnant : Nat
deriving DecidableEq, Repr

def MAX_SCROLL_ATTEMPTS_WITHOUT_NEW_LINKS : Nat := 5

/-- place_links.update for a single href (Python set insertion,
modelled in first-seen order). -/
def insertLink (links : List String) (l : String) : List String :=
  if links.contains l then links else links ++ [l]

/-- place_links.update(current_links). -/
def insertAll (links : List String) (new : List String) : List String :=
  new.foldl insertLink links

/-- Outcome of one loop cycle: break with the final link set, or continue
with the next state. -/
inductive CycleStep where
  | done (links : List String)
  | next (s : LoopState)
deriving DecidableEq, Repr

/-- The height / end-marker / stagnation-counter logic of one cycle, reached
when the max_places quota did not fire.  links is the already-updated
place_links set. -/
def heightCheck (s : LoopState) (links : List String) (o : Obs)
    (new_links_found : Bool) : CycleStep :=
  if o.height = s.lastHeight then
    if o.endMarker then .done links
    else if new_links_found then .next ⟨links, s.lastHeight, 0⟩
    else if MAX_SCROLL_ATTEMPTS_WITHOUT_NEW_LINKS ≤ s.stagnant + 1 then
      .done links
    else .next ⟨links, s.lastHeight, s.stagnant + 1⟩
  else .next ⟨links, o.height, 0⟩

/-- One iteration of the while True scroll loop of scrape_google_maps:
update place_links, check the max_places quota (truncating with
set(list(place_links)[:max_places]) when reached), then the height and
stagnation logic. -/
def scrollCycle (max_places : Option Nat) (s : LoopState) (o : Obs) :
    CycleStep :=
  let new_links_found := o.links.any (fun l => !(s.placeLinks.contains l))
  let links := insertAll s.placeLinks o.links
  match max_places with
  | some k =>
    if k ≤ links.length then .done (links.take k)
    else heightCheck s links o new_links_found
  | none => heightCheck s links o new_links_found

/-- The scroll loop itself, driven by the feed trace from cycle index i,
with explicit fuel; none is the modelling artifact for running out of
fuel before the loop breaks. -/
def scrollLoop (max_places : Option Nat) (feed : Nat → Obs) :
    Nat → LoopState → Nat → Option (List String)
  | 0, _, _ => none
  | fuel + 1, s, i =>
    match scrollCycle max_places s (feed i) with
    | .done links => some links
    | .next s' => scrollLoop max_places feed fuel s' (i + 1)

/-! The discovery stage around the scroll loop, and the per-item extraction
stage of scrape_google_maps. -/

/-- The page environment the discovery stage observes: whether the
wait_for_selector on the results feed succeeds within its 25s timeout,
the current page URL, whether that URL contains "/maps/place/", the
scrollHeight read before the loop, and the per-cycle feed trace. -/
structure PageEnv where
  feedVisible : Bool
  url : String
  urlIsPlace : Bool
  initialHeight : Nat
  feed : Nat → Obs

/-- Result of the discovery stage.  noResults models the code path that
prints the feed-not-found message and has the whole function return [];
it is a normal return, not a raised error. -/
inductive DiscoverOutcome where
  | found (links : List String)
  | noResults
deriving DecidableEq, Repr

/-- The discovery stage of scrape_google_maps: when the feed became visible
the scroll loop runs from an empty link set; on the wait timeout, a URL
containing "/maps/place/" short-circuits to that single link with the scroll
loop skipped (the feed locator count is 0), and otherwise the function
returns the empty list. -/
def discover (env : PageEnv) (max_places : Option Nat) (fuel : Nat) :
    Option DiscoverOutcome :=
  if env.feedVisible then
    match scrollLoop max_places env.feed fuel ⟨[], env.initialHeight, 0⟩ 0 with
    | some links => some (.found links)
    | none => none
  else if env.urlIsPlace then
    some (.found [env.url])
  else
    some .noResults

/-- What happens when one discovered link is processed: the page.goto or
page.content raises a Playwright timeout, some other exception is raised,
the extractor returns a falsy value, or the extractor returns a record. -/
inductive ItemOutcome where
  | navTimeout : ItemOutcome
  | navError (msg : String) : ItemOutcome
  | noRecord : ItemOutcome
  | record (r : EntityRecord) : ItemOutcome
deriving DecidableEq, Repr

/-- place_data['link'] = link on a successful extraction. -/
def withLink (r : EntityRecord) (link : String) : EntityRecord :=
  { r with link := some link }

/-- The raw body of one iteration of the extraction loop, before the
try/except: a failure is an error of the exception message. -/
def processItemRaw : ItemOutcome → Except String (Option EntityRecord)
  | .navTimeout => .error "PlaywrightTimeoutError"
  | .navError msg => .error msg
  | .noRecord => .ok none
  | .record r => .ok (some r)

/-- One iteration of the extraction loop as the code runs it: the two except
clauses catch the failure, log it and move on, and a falsy extractor result
is logged and skipped as well. -/
def processItem (itemEnv : String → ItemOutcome) (link : String) :
    Option EntityRecord :=
  match processItemRaw (itemEnv link) with
  | .error _ => none
  | .ok none => none
  | .ok (some r) => some (withLink r link)

/-- The extraction loop over the discovered links: each successfully
extracted record is appended to results. -/
def extract_all (itemEnv : String → ItemOutcome) (links : List String) :
    List EntityRecord :=
  links.filterMap (processItem itemEnv)

/-- The extraction stage with error propagation made explicit: an exception
not stopped by the per-item try/except would surface here as .error.  The
per-item handler catches every failure constructor, so the stage only ever
produces .ok. -/
def extract_all_stage (itemEnv : String → ItemOutcome) :
    List String → Except String (List EntityRecord)
  | [] => .ok []
  | link :: rest =>
    let contribution :=
      match processItemRaw (itemEnv link) with
      | .error _ => []
      | .ok none => []
      | .ok (some r) => [withLink r link]
    match extract_all_stage itemEnv rest with
    | .error e => .error e
    | .ok rs => .ok (contribution ++ rs)

/-- scrape_google_maps end to end on the happy control path: discovery, then
the extraction loop over the discovered links; the feed-never-visible,
no-single-place path returns the empty list.  none is the fuel artifact of
the scroll-loop model. -/
def scrape_google_maps (env : PageEnv) (itemEnv : String → ItemOutcome)
    (max_places : Option Nat) (fuel : Nat) : Option (List EntityRecord) :=
  match discover env max_places fuel with
  | none => none
  | some .noResults => some []
  | some (.found links) => some (extract_all itemEnv links)

/-! api.py run_scrape: the orchestrator around the scraper and the two
persistence calls. -/

/-- How the awaited scrape task can fail: asyncio.wait_for raising
asyncio.TimeoutError, or any other exception. -/
inductive ScrapeExc where
  | timeout : ScrapeExc
  | other (msg : String) : ScrapeExc
deriving DecidableEq, Repr

/-- The HTTPException responses run_scrape can raise. -/
inductive ApiError where
  | http504 (detail : String) : ApiError
  | http500 (detail : String) : ApiError
deriving DecidableEq, Repr

/-- api.py run_scrape: a timeout of the scrape maps to 504, any other scrape
failure to 500; then upsert_entities and upsert_scrape_history run in the
worker pool, each failure mapping to 500; only when both succeeded is the
result list returned. -/
def run_scrape (scrapeResult : Except ScrapeExc (List EntityRecord))
    (persistEntities : List EntityRecord → Except String Nat)
    (persistHistory : Nat → Except String Nat) :
    Except ApiError (List EntityRecord) :=
  match scrapeResult with
  | .error .timeout =>
    .error (.http504 "Scraping request timed out after 5 minutes")
  | .error (.other msg) =>
    .error (.http500 msg)
  | .ok results =>
    match persistEntities results with
    | .error msg => .error (.http500 msg)
    | .ok _ =>
      match persistHistory results.length with
      | .error msg => .error (.http500 msg)
      | .ok _ => .ok results

/-- The wall-clock timeout in seconds passed to asyncio.wait_for. -/
def SCRAPE_TIMEOUT : Nat := 300

/-- Timing of one run: how long the scrape coroutine would need, and how
long the two persistence calls take afterwards. -/
structure Timing where
  scrapeDuration : Nat
  persistDuration : Nat
deriving DecidableEq, Repr

/-- Result of a timed run: the response, and whether the persistence calls
executed at all. -/
structure TimedOutcome where
  response : Except ApiError (List EntityRecord)
  persisted : Bool
deriving Repr

/-- The timing behaviour of run_scrape: asyncio.wait_for cancels the scrape
and raises once the scrape alone exceeds the 300s window, in which case the
handler raises 504 and the upserts never run; when the scrape finishes in
time, the persistence calls run with no further deadline check, however long
they take. -/
def run_scrape_timed (t : Timing) (records : List EntityRecord) :
    TimedOutcome :=
  if SCRAPE_TIMEOUT < t.scrapeDuration then
    ⟨.error (.http504 "Scraping request timed out after 5 minutes"), false⟩
  else
    ⟨.ok records, true⟩

/-! Concrete fixtures used by witnesses and counterexamples. -/

/-- An empty entities table. -/
def db0 : EntitiesTable := ⟨[], []⟩

/-- An empty scrape_history table. -/
def histDb0 : Hist.HistTable := ⟨[]⟩

/-- A record keyed p1 carrying name A. -/
def recA : EntityRecord := { place_id := some "p1", name := some "A" }

/-- A record keyed p1 carrying name B. -/
def recB : EntityRecord := { place_id := some "p1", name := some "B" }

/-- A nonempty record with no place_id. -/
def keyless : EntityRecord := { name := some "x" }

/-- The record key p1, rating "4.5" of the spec scenario. -/
def rec45 : EntityRecord := { place_id := some "p1", rating := .vStr "4.5" }

/-- The record key p1, rating "bad" of the spec scenario. -/
def recBad : EntityRecord := { place_id := some "p1", rating := .vStr "bad" }

/-- A history record whose source stringifies to the empty string. -/
def emptySourceRec : Hist.HistRecord := { source := some (.vStr "") }

/-- A feed trace that grows for three cycles (finding a, b, then c, then
d and e) and then reports the end-of-list marker. -/
def feedW : Nat → Obs := fun i =>
  if i = 0 then ⟨["a", "b"], 1, false⟩
  else if i = 1 then ⟨["a", "b", "c"], 2, false⟩
  else if i = 2 then ⟨["a", "b", "c", "d", "e"], 3, false⟩
  else ⟨[], 3, true⟩

/-- A feed trace that never changes and never shows the end marker. -/
def feedConst : Nat → Obs := fun _ => ⟨["a"], 7, false⟩

/-- A page whose results feed became visible, driven by feedW. -/
def envW : PageEnv := ⟨true, "https://maps.example/search", false, 0, feedW⟩

/-- A page whose results feed never appears and whose URL is not a
single-place URL. -/
def envNoFeed : PageEnv :=
  ⟨false, "https://www.google.com/maps/search/?q=x", false, 0, fun _ => ⟨[], 0, false⟩⟩

/-- A page whose results feed never appears but whose URL contains
"/maps/place/". -/
def envSingle : PageEnv :=
  ⟨false, "https://www.google.com/maps/place/foo", true, 0, fun _ => ⟨[], 0, false⟩⟩

/-- A per-item environment where link x fails with a navigation timeout and
every other link extracts an empty record. -/
def itemEnvW : String → ItemOutcome := fun l =>
  if l = "x" then .navTimeout else .record {}

/-- The feed is eventually stagnant: from cycle N on, the observed extent
stays at its cycle-N value and no link outside the cycle-N link list ever
appears.  A real feed with finitely many items behaves this way once the
upstream list is exhausted. -/
def StagnantFrom (feed : Nat → Obs) (N : Nat) : Prop :=
  ∀ i, N ≤ i → (feed i).height = (feed N).height ∧
    ∀ l ∈ (feed i).links, l ∈ (feed N).links

/-- The max_places quota does not fire on the given link set. -/
def NoQuota (max_places : Option Nat) (links : List String) : Prop :=
  ∀ k, max_places = some k → links.length < k

/-! Helper lemmas about the link-set operations and the loop. -/

theorem mem_insertLink_left {l : String} {xs : List String} (y : String)
    (h : l ∈ xs) : l ∈ insertLink xs y := by
  unfold insertLink
  split <;> simp [h]

theorem mem_insertLink_self (xs : List String) (y : String) :
    y ∈ insertLink xs y := by
  unfold insertLink
  split
  · next h => exact List.elem_iff.mp h
  · simp

theorem mem_insertAll_left {l : String} {xs : List String} (ys : List String)
    (h : l ∈ xs) : l ∈ insertAll xs ys := by
  induction ys generalizing xs with
  | nil => exact h
  | cons y ys ih => exact ih (mem_insertLink_left y h)

theorem mem_insertAll_right {l : String} (xs : List String) {ys : List String}
    (h : l ∈ ys) : l ∈ insertAll xs ys := by
  induction ys generalizing xs with
  | nil => cases h
  | cons y ys ih =>
    rcases List.mem_cons.mp h with rfl | h
    · exact mem_insertAll_left ys (mem_insertLink_self xs l)
    · exact ih _ h

theorem insertAll_eq_self {xs ys : List String} (h : ∀ l ∈ ys, l ∈ xs) :
    insertAll xs ys = xs := by
  induction ys generalizing xs with
  | nil => rfl
  | cons y ys ih =>
    have hy : xs.contains y = true := List.elem_iff.mpr (h y (by simp))
    show insertAll (insertLink xs y) ys = xs
    rw [insertLink, if_pos hy]
    exact ih (fun l hl => h l (by simp [hl]))

theorem insertLink_nodup {xs : List String} (y : String) (h : xs.Nodup) :
    (insertLink xs y).Nodup := by
  unfold insertLink
  split
  · exact h
  · next hc =>
    refine List.nodup_append.mpr ⟨h, List.nodup_singleton y, ?_⟩
    intro a ha hay
    rw [List.mem_singleton] at hay
    subst hay
    exact hc (List.elem_iff.mpr ha)

theorem insertAll_nodup {xs : List String} (ys : List String) (h : xs.Nodup) :
    (insertAll xs ys).Nodup := by
  induction ys generalizing xs with
  | nil => exact h
  | cons y ys ih => exact ih (insertLink_nodup y h)

theorem heightCheck_done {s : LoopState} {links : List String} {o : Obs}
    {nf : Bool} {l : List String} (h : heightCheck s links o nf = .done l) :
    l = links := by
  unfold heightCheck at h
  split_ifs at h <;> simp_all

theorem heightCheck_next {s : LoopState} {links : List String} {o : Obs}
    {nf : Bool} {s' : LoopState} (h : heightCheck s links o nf = .next s') :
    s'.placeLinks = links ∧ s'.lastHeight = o.height := by
  unfold heightCheck at h
  split_ifs at h <;> (cases h; simp_all)

theorem scrollCycle_none_eq (s : LoopState) (o : Obs) :
    scrollCycle none s o =
      heightCheck s (insertAll s.placeLinks o.links) o
        (o.links.any (fun l => !(s.placeLinks.contains l))) := by
  simp [scrollCycle]

theorem scrollCycle_some_eq (k : Nat) (s : LoopState) (o : Obs) :
    scrollCycle (some k) s o =
      (if k ≤ (insertAll s.placeLinks o.links).length then
        .done ((insertAll s.placeLinks o.links).take k)
      else
        heightCheck s (insertAll s.placeLinks o.links) o
          (o.links.any (fun l => !(s.placeLinks.contains l)))) := by
  simp [scrollCycle]

/-- Simulation between the unbounded and the quota-bounded scroll loop: when
the unbounded loop would accumulate more than k links, the bounded loop
terminates at the first cycle whose accumulated set reaches size k and
returns exactly k distinct links. -/
theorem scrollLoop_quota (k : Nat) (feed : Nat → Obs) :
    ∀ (fuel : Nat) (s : LoopState) (i : Nat) (L : List String),
    s.placeLinks.Nodup → s.placeLinks.length < k →
    scrollLoop none feed fuel s i = some L → k < L.length →
    ∃ links, scrollLoop (some k) feed fuel s i = some links ∧
      links.length = k ∧ links.Nodup := by
  intro fuel
  induction fuel with
  | zero =>
    intro s i L _ _ h _
    simp [scrollLoop] at h
  | succ fuel ih =>
    intro s i L hnd hlt h hk
    by_cases hq : k ≤ (insertAll s.placeLinks (feed i).links).length
    · refine ⟨(insertAll s.placeLinks (feed i).links).take k, ?_, ?_, ?_⟩
      · simp [scrollLoop, scrollCycle_some_eq, hq]
      · simp [List.length_take]
        omega
      · exact (List.take_sublist _ _).nodup (insertAll_nodup _ hnd)
    · rw [scrollLoop, scrollCycle_none_eq] at h
      cases hH : heightCheck s (insertAll s.placeLinks (feed i).links) (feed i)
          (((feed i).links).any (fun l => !(s.placeLinks.contains l))) with
      | done l2 =>
        rw [hH] at h
        simp only [Option.some.injEq] at h
        subst h
        have := heightCheck_done hH
        subst this
        omega
      | next s' =>
        rw [hH] at h
        have hfields := heightCheck_next hH
        have hnd' : s'.placeLinks.Nodup := by
          rw [hfields.1]
          exact insertAll_nodup _ hnd
        have hlt' : s'.placeLinks.length < k := by
          rw [hfields.1]
          omega
        obtain ⟨links, hrun, hlen, hlnd⟩ := ih s' (i + 1) L hnd' hlt' h hk
        refine ⟨links, ?_, hlen, hlnd⟩
        rw [scrollLoop, scrollCycle_some_eq, if_neg hq, hH]
        exact hrun

/-- C1: for a discovery run with maxResults = k (k ≥ 1) whose unbounded run
would accumulate more than k identifiers, discovery with the bound terminates
at the quota and returns a set of exactly k distinct identifiers (the
truncation set(list(place_links)[:max_places]) keeps k of them, order
arbitrary). -/
theorem discover_maxResults_truncates (env : PageEnv) (k fuel : Nat)
    (L : List String) (hv : env.feedVisible = true) (hk : 1 ≤ k)
    (hd : discover env none fuel = some (.found L)) (hlen : k < L.length) :
    ∃ links, discover env (some k) fuel = some (.found links) ∧
      links.length = k ∧ links.Nodup := by
  unfold discover at hd ⊢
  rw [hv] at hd ⊢
  simp only [if_true] at hd ⊢
  cases hsl : scrollLoop none env.feed fuel ⟨[], env.initialHeight, 0⟩ 0 with
  | none => rw [hsl] at hd; cases hd
  | some L' =>
    rw [hsl] at hd
    simp only [Option.some.injEq, DiscoverOutcome.found.injEq] at hd
    subst hd
    obtain ⟨links, hrun, hlinks, hnd⟩ :=
      scrollLoop_quota k env.feed fuel ⟨[], env.initialHeight, 0⟩ 0 L'
        (by simp) (by simpa using hk) hsl hlen
    exact ⟨links, by rw [hrun], hlinks, hnd⟩

/-- Witness for C1 at a concrete feed: unbounded discovery on envW finds
five links, bounded discovery with maxResults = 3 returns exactly three. -/
theorem discover_maxResults_truncates_witness :
    envW.feedVisible = true ∧ 1 ≤ 3 ∧
    discover envW none 10 = some (.found ["a", "b", "c", "d", "e"]) ∧
    3 < 5 ∧
    ∃ links, discover envW (some 3) 10 = some (.found links) ∧
      links.length = 3 ∧ links.Nodup :=
  ⟨rfl, by decide, by rfl, by decide,
    discover_maxResults_truncates envW 3 10 ["a", "b", "c", "d", "e"]
      rfl (by decide) (by rfl) (by decide)⟩

theorem contains_eq_false {xs : List String} {l : String} (h : l ∉ xs) :
    xs.contains l = false := by
  cases hceq : xs.contains l with
  | false => rfl
  | true => exact absurd (List.elem_iff.mp hceq) h

theorem no_new_links {xs : List String} {ls : List String}
    (h : ∀ l ∈ ls, l ∈ xs) :
    (ls.any (fun l => !(xs.contains l))) = false := by
  rw [List.any_eq_false]
  intro x hx
  simpa using h x hx

theorem some_new_link {xs : List String} {ls : List String} {l : String}
    (hmem : l ∈ ls) (hnew : l ∉ xs) :
    (ls.any (fun l => !(xs.contains l))) = true := by
  rw [List.any_eq_true]
  exact ⟨l, hmem, by simpa using hnew⟩

theorem heightCheck_stagnant_next (s : LoopState) (links : List String)
    (o : Obs) (hh : o.height = s.lastHeight) (hm : o.endMarker = false)
    (h5 : s.stagnant + 1 < 5) :
    heightCheck s links o false = .next ⟨links, s.lastHeight, s.stagnant + 1⟩ := by
  unfold heightCheck MAX_SCROLL_ATTEMPTS_WITHOUT_NEW_LINKS
  rw [if_pos hh, hm]
  simp only [Bool.false_eq_true, if_false]
  rw [if_neg (by omega)]

theorem heightCheck_stagnant_done (s : LoopState) (links : List String)
    (o : Obs) (hh : o.height = s.lastHeight) (hm : o.endMarker = false)
    (h5 : 5 ≤ s.stagnant + 1) :
    heightCheck s links o false = .done links := by
  unfold heightCheck MAX_SCROLL_ATTEMPTS_WITHOUT_NEW_LINKS
  rw [if_pos hh, hm]
  simp only [Bool.false_eq_true, if_false]
  rw [if_pos h5]

theorem heightCheck_newlinks_next (s : LoopState) (links : List String)
    (o : Obs) (hh : o.height = s.lastHeight) (hm : o.endMarker = false) :
    heightCheck s links o true = .next ⟨links, s.lastHeight, 0⟩ := by
  unfold heightCheck
  rw [if_pos hh, hm]
  simp

theorem heightCheck_growth_next (s : LoopState) (links : List String)
    (o : Obs) (nf : Bool) (hh : o.height ≠ s.lastHeight) :
    heightCheck s links o nf = .next ⟨links, o.height, 0⟩ := by
  unfold heightCheck
  rw [if_neg hh]

theorem scrollCycle_next {mp : Option Nat} {s : LoopState} {o : Obs}
    {s' : LoopState} (h : scrollCycle mp s o = .next s') :
    s'.placeLinks = insertAll s.placeLinks o.links ∧
      s'.lastHeight = o.height := by
  cases mp with
  | none =>
    rw [scrollCycle_none_eq] at h
    exact heightCheck_next h
  | some k =>
    rw [scrollCycle_some_eq] at h
    by_cases hq : k ≤ (insertAll s.placeLinks o.links).length
    · rw [if_pos hq] at h
      cases h
    · rw [if_neg hq] at h
      exact heightCheck_next h

/-- Under a stagnant observation (height equal to last_height, no unseen
link), a cycle either breaks out of the loop or continues with the counter
incremented and everything else unchanged. -/
theorem scrollCycle_stagnant (mp : Option Nat) (s : LoopState) (o : Obs)
    (hh : o.height = s.lastHeight) (hl : ∀ l ∈ o.links, l ∈ s.placeLinks) :
    (∃ l, scrollCycle mp s o = .done l) ∨
      (scrollCycle mp s o =
          .next ⟨s.placeLinks, s.lastHeight, s.stagnant + 1⟩ ∧
        s.stagnant + 1 < 5) := by
  have hins : insertAll s.placeLinks o.links = s.placeLinks :=
    insertAll_eq_self hl
  have hnf := no_new_links hl
  have hHC : (∃ l, heightCheck s s.placeLinks o false = .done l) ∨
      (heightCheck s s.placeLinks o false =
          .next ⟨s.placeLinks, s.lastHeight, s.stagnant + 1⟩ ∧
        s.stagnant + 1 < 5) := by
    by_cases hm : o.endMarker
    · left
      refine ⟨s.placeLinks, ?_⟩
      unfold heightCheck
      rw [if_pos hh, hm]
      simp
    · rw [Bool.not_eq_true] at hm
      by_cases h5 : 5 ≤ s.stagnant + 1
      · exact .inl ⟨s.placeLinks, heightCheck_stagnant_done s _ o hh hm h5⟩
      · exact .inr ⟨heightCheck_stagnant_next s _ o hh hm (by omega), by omega⟩
  cases mp with
  | none =>
    rw [scrollCycle_none_eq, hins, hnf]
    exact hHC
  | some k =>
    rw [scrollCycle_some_eq, hins, hnf]
    by_cases hq : k ≤ s.placeLinks.length
    · exact .inl ⟨s.placeLinks.take k, by rw [if_pos hq]⟩
    · rw [if_neg hq]
      exact hHC

/-- Once every remaining observation matches the current state (the feed
height equals last_height and shows no unseen link), the loop breaks within
5 more cycles: the stagnation counter increments each cycle. -/
theorem scrollLoop_stable_isSome (mp : Option Nat) (feed : Nat → Obs) :
    ∀ (fuel : Nat) (s : LoopState) (j : Nat),
    (∀ i, j ≤ i → (feed i).height = s.lastHeight ∧
        ∀ l ∈ (feed i).links, l ∈ s.placeLinks) →
    1 ≤ fuel → 5 ≤ fuel + s.stagnant →
    (scrollLoop mp feed fuel s j).isSome := by
  intro fuel
  induction fuel with
  | zero =>
    intro s j _ h1 _
    omega
  | succ fuel ih =>
    intro s j hstab _ hcnt
    obtain ⟨hh, hl⟩ := hstab j (le_refl j)
    rcases scrollCycle_stagnant mp s (feed j) hh hl with ⟨l, hdone⟩ | ⟨hnext, h5⟩
    · rw [scrollLoop, hdone]
      simp
    · rw [scrollLoop, hnext]
      apply ih ⟨s.placeLinks, s.lastHeight, s.stagnant + 1⟩ (j + 1)
      · intro i hi
        exact hstab i (by omega)
      · omega
      · simpa using (by omega : 5 ≤ fuel + (s.stagnant + 1))

/-- From the first stagnant cycle on, the loop has at most 6 cycles left:
one cycle to align last_height and absorb the final link set, then at most
5 stagnation-counted cycles. -/
theorem scrollLoop_stagnantFrom_isSome (mp : Option Nat) (feed : Nat → Obs) :
    ∀ (n : Nat) (s : LoopState) (j : Nat),
    (∀ i, j + n ≤ i → (feed i).height = (feed (j + n)).height ∧
        ∀ l ∈ (feed i).links, l ∈ (feed (j + n)).links) →
    (scrollLoop mp feed (n + 6) s j).isSome := by
  intro n
  induction n with
  | zero =>
    intro s j hstab
    rw [scrollLoop]
    cases hc : scrollCycle mp s (feed j) with
    | done links => simp
    | next s' =>
      have hf := scrollCycle_next hc
      apply scrollLoop_stable_isSome mp feed 5 s' (j + 1)
      · intro i hi
        obtain ⟨hhi, hli⟩ := hstab i (by omega)
        refine ⟨?_, ?_⟩
        · rw [hf.2]
          simpa using hhi
        · intro l hlmem
          rw [hf.1]
          exact mem_insertAll_right _ (by simpa using hli l hlmem)
      · omega
      · omega
  | succ n ih =>
    intro s j hstab
    have hfuel : n + 1 + 6 = (n + 6) + 1 := by omega
    rw [hfuel, scrollLoop]
    cases hc : scrollCycle mp s (feed j) with
    | done links => simp
    | next s' =>
      apply ih s' (j + 1)
      intro i hi
      have hidx : j + 1 + n = j + (n + 1) := by omega
      rw [hidx]
      exact hstab i (by omega)

/-- C6: the discovery loop is bounded by the stagnation counter.  A cycle
with unchanged extent and no unseen identifier increments the counter and
terminates the loop once it reaches 5; a cycle that finds a new identifier
or observes extent growth resets the counter to 0, so only consecutive
doubly-stagnant cycles count; and on any feed that is eventually stagnant
(never showing an end marker or not), the loop terminates within the first
stagnant cycle plus 6 further cycles. -/
theorem stagnation_counter_bounds :
    (∀ (mp : Option Nat) (s : LoopState) (o : Obs),
      NoQuota mp s.placeLinks → o.height = s.lastHeight →
      o.endMarker = false → (∀ l ∈ o.links, l ∈ s.placeLinks) →
      s.stagnant + 1 < 5 →
      scrollCycle mp s o = .next ⟨s.placeLinks, s.lastHeight, s.stagnant + 1⟩) ∧
    (∀ (mp : Option Nat) (s : LoopState) (o : Obs),
      NoQuota mp s.placeLinks → o.height = s.lastHeight →
      o.endMarker = false → (∀ l ∈ o.links, l ∈ s.placeLinks) →
      5 ≤ s.stagnant + 1 →
      scrollCycle mp s o = .done s.placeLinks) ∧
    (∀ (mp : Option Nat) (s : LoopState) (o : Obs) (l : String),
      NoQuota mp (insertAll s.placeLinks o.links) → o.height = s.lastHeight →
      o.endMarker = false → l ∈ o.links → l ∉ s.placeLinks →
      scrollCycle mp s o =
        .next ⟨insertAll s.placeLinks o.links, s.lastHeight, 0⟩) ∧
    (∀ (mp : Option Nat) (s : LoopState) (o : Obs),
      NoQuota mp (insertAll s.placeLinks o.links) → s.lastHeight < o.height →
      scrollCycle mp s o = .next ⟨insertAll s.placeLinks o.links, o.height, 0⟩) ∧
    (∀ (feed : Nat → Obs) (N : Nat), StagnantFrom feed N →
      ∀ (mp : Option Nat) (s : LoopState),
        (scrollLoop mp feed (N + 6) s 0).isSome) := by
  refine ⟨?_, ?_, ?_, ?_, ?_⟩
  · intro mp s o hq hh hm hl h5
    have hins : insertAll s.placeLinks o.links = s.placeLinks :=
      insertAll_eq_self hl
    have hnf := no_new_links hl
    cases mp with
    | none =>
      rw [scrollCycle_none_eq, hins, hnf]
      exact heightCheck_stagnant_next s _ o hh hm h5
    | some k =>
      rw [scrollCycle_some_eq, hins, hnf,
        if_neg (Nat.not_le.mpr (hq k rfl))]
      exact heightCheck_stagnant_next s _ o hh hm h5
  · intro mp s o hq hh hm hl h5
    have hins : insertAll s.placeLinks o.links = s.placeLinks :=
      insertAll_eq_self hl
    have hnf := no_new_links hl
    cases mp with
    | none =>
      rw [scrollCycle_none_eq, hins, hnf]
      exact heightCheck_stagnant_done s _ o hh hm h5
    | some k =>
      rw [scrollCycle_some_eq, hins, hnf,
        if_neg (Nat.not_le.mpr (hq k rfl))]
      exact heightCheck_stagnant_done s _ o hh hm h5
  · intro mp s o l hq hh hm hmem hnew
    have hnf := some_new_link hmem hnew
    cases mp with
    | none =>
      rw [scrollCycle_none_eq, hnf]
      exact heightCheck_newlinks_next s _ o hh hm
    | some k =>
      rw [scrollCycle_some_eq, hnf, if_neg (Nat.not_le.mpr (hq k rfl))]
      exact heightCheck_newlinks_next s _ o hh hm
  · intro mp s o hq hh
    have hne : o.height ≠ s.lastHeight := by omega
    cases mp with
    | none =>
      rw [scrollCycle_none_eq]
      exact heightCheck_growth_next s _ o _ hne
    | some k =>
      rw [scrollCycle_some_eq, if_neg (Nat.not_le.mpr (hq k rfl))]
      exact heightCheck_growth_next s _ o _ hne
  · intro feed N hstag mp s
    apply scrollLoop_stagnantFrom_isSome mp feed N s 0
    intro i hi
    have h0 : 0 + N = N := by omega
    rw [h0] at hi ⊢
    exact hstag i hi

/-- Witness for C6 on concrete states and the constant feed: the counter
increments from 2 to 3 on a doubly-stagnant cycle, breaks at 5, resets on a
new link and on extent growth, and the loop on the never-ending constant
feed terminates within 6 cycles. -/
theorem stagnation_counter_bounds_witness :
    scrollCycle none ⟨["a"], 7, 2⟩ ⟨["a"], 7, false⟩ = .next ⟨["a"], 7, 3⟩ ∧
    scrollCycle none ⟨["a"], 7, 4⟩ ⟨["a"], 7, false⟩ = .done ["a"] ∧
    scrollCycle none ⟨[], 7, 3⟩ ⟨["a"], 7, false⟩ = .next ⟨["a"], 7, 0⟩ ∧
    scrollCycle none ⟨["a"], 5, 3⟩ ⟨["a"], 7, false⟩ = .next ⟨["a"], 7, 0⟩ ∧
    (scrollLoop none feedConst 6 ⟨[], 7, 0⟩ 0).isSome := by
  refine ⟨?_, ?_, ?_, ?_, ?_⟩
  · exact stagnation_counter_bounds.1 none ⟨["a"], 7, 2⟩ ⟨["a"], 7, false⟩
      (fun k hk => by cases hk) rfl rfl (by decide) (by decide)
  · exact stagnation_counter_bounds.2.1 none ⟨["a"], 7, 4⟩ ⟨["a"], 7, false⟩
      (fun k hk => by cases hk) rfl rfl (by decide) (by decide)
  · exact stagnation_counter_bounds.2.2.1 none ⟨[], 7, 3⟩ ⟨["a"], 7, false⟩
      "a" (fun k hk => by cases hk) rfl rfl (by decide) (by decide)
  · exact stagnation_counter_bounds.2.2.2.1 none ⟨["a"], 5, 3⟩
      ⟨["a"], 7, false⟩ (fun k hk => by cases hk) (by decide)
  · exact stagnation_counter_bounds.2.2.2.2 feedConst 0
      (fun i _ => ⟨rfl, fun l hl => hl⟩) none ⟨[], 7, 0⟩

/-- C7: per-item extraction failures (navigation timeout, other navigation
or parse exception, extractor returning no usable record) are contained by
the per-item try/except: the stage never surfaces an error, a failing item
contributes nothing while the items before and after it are still processed,
and a successful item contributes its record with the source link added. -/
theorem per_item_failures_isolated :
    (∀ (itemEnv : String → ItemOutcome) (links : List String),
      extract_all_stage itemEnv links = .ok (extract_all itemEnv links)) ∧
    (∀ (itemEnv : String → ItemOutcome) (pre : List String) (link : String)
        (post : List String),
      (itemEnv link = .navTimeout ∨ (∃ m, itemEnv link = .navError m) ∨
        itemEnv link = .noRecord) →
      extract_all itemEnv (pre ++ link :: post) =
        extract_all itemEnv pre ++ extract_all itemEnv post) ∧
    (∀ (itemEnv : String → ItemOutcome) (link : String) (r : EntityRecord),
      itemEnv link = .record r →
      extract_all itemEnv [link] = [withLink r link]) := by
  refine ⟨?_, ?_, ?_⟩
  · intro itemEnv links
    induction links with
    | nil => rfl
    | cons l rest ih =>
      rw [extract_all_stage, ih]
      cases h : itemEnv l <;>
        simp [extract_all, processItem, processItemRaw, h, List.filterMap_cons]
  · intro itemEnv pre link post h
    have hnone : processItem itemEnv link = none := by
      rcases h with h | ⟨m, h⟩ | h <;> simp [processItem, processItemRaw, h]
    simp [extract_all, List.filterMap_append, List.filterMap_cons, hnone]
  · intro itemEnv link r h
    simp [extract_all, List.filterMap_cons, processItem, processItemRaw, h]

/-- Witness for C7: with link x timing out between two good links, the stage
returns .ok and the two good links are still processed. -/
theorem per_item_failures_isolated_witness :
    extract_all_stage itemEnvW ["g", "x", "h"] =
      .ok (extract_all itemEnvW ["g", "x", "h"]) ∧
    itemEnvW "x" = .navTimeout ∧
    extract_all itemEnvW (["g"] ++ "x" :: ["h"]) =
      extract_all itemEnvW ["g"] ++ extract_all itemEnvW ["h"] ∧
    itemEnvW "g" = .record {} ∧
    extract_all itemEnvW ["g"] = [withLink {} "g"] :=
  ⟨per_item_failures_isolated.1 itemEnvW ["g", "x", "h"], by rfl,
    per_item_failures_isolated.2.1 itemEnvW ["g"] "x" ["h"] (.inl (by rfl)),
    by rfl,
    per_item_failures_isolated.2.2 itemEnvW "g" {} (by rfl)⟩

/-- C5: the API caller receives either the success list exactly as the
scrape stage produced it (one record per successfully extracted identifier),
or an error response (504 for the deadline, 500 otherwise); a failure of the
scrape or of either persistence call never yields a partial success list. -/
theorem run_scrape_full_or_error :
    (∀ (scrapeResult : Except ScrapeExc (List EntityRecord))
        (pe : List EntityRecord → Except String Nat)
        (ph : Nat → Except String Nat),
      (∃ rs, run_scrape scrapeResult pe ph = .ok rs ∧ scrapeResult = .ok rs) ∨
      (∃ e, run_scrape scrapeResult pe ph = .error e)) ∧
    (∀ (itemEnv : String → ItemOutcome) (links : List String)
        (pe : List EntityRecord → Except String Nat)
        (ph : Nat → Except String Nat),
      run_scrape (.ok (extract_all itemEnv links)) pe ph =
          .ok (extract_all itemEnv links) ∨
      (∃ e, run_scrape (.ok (extract_all itemEnv links)) pe ph =
          .error e)) := by
  have main : ∀ (scrapeResult : Except ScrapeExc (List EntityRecord))
      (pe : List EntityRecord → Except String Nat)
      (ph : Nat → Except String Nat),
      (∃ rs, run_scrape scrapeResult pe ph = .ok rs ∧ scrapeResult = .ok rs) ∨
      (∃ e, run_scrape scrapeResult pe ph = .error e) := by
    intro scrapeResult pe ph
    cases scrapeResult with
    | error exc =>
      cases exc with
      | timeout => exact .inr ⟨_, rfl⟩
      | other msg => exact .inr ⟨_, rfl⟩
    | ok rs =>
      cases hpe : pe rs with
      | error msg => exact .inr ⟨.http500 msg, by simp [run_scrape, hpe]⟩
      | ok n =>
        cases hph : ph rs.length with
        | error msg =>
          exact .inr ⟨.http500 msg, by simp [run_scrape, hpe, hph]⟩
        | ok m => exact .inl ⟨rs, by simp [run_scrape, hpe, hph], rfl⟩
  refine ⟨main, ?_⟩
  intro itemEnv links pe ph
  rcases main (.ok (extract_all itemEnv links)) pe ph with ⟨rs, hok, heq⟩ | he
  · simp only [Except.ok.injEq] at heq
    subst heq
    exact .inl hok
  · exact .inr he

/-- C4 counterexample: when the results feed never becomes visible and the
URL is not a single-place URL, the code does not raise an error: the run
returns the empty list as a normal result, and the API layer hands that
empty list back as a 200 success. -/
theorem discovery_failure_returns_empty_counterexample :
    discover envNoFeed none 10 = some .noResults ∧
    scrape_google_maps envNoFeed itemEnvW none 10 = some [] ∧
    run_scrape (.ok []) (fun rs => .ok rs.length) (fun _ => .ok 1) = .ok [] :=
  ⟨rfl, rfl, rfl⟩

/-- C4 amended: if the results container never becomes visible and the page
is not a single-item page, discovery yields the empty identifier set and the
run returns an empty list as a normal (non-error) result; if the page is a
single-item page, discovery returns exactly that one identifier with the
scroll loop skipped. -/
theorem discovery_no_feed_behavior :
    (∀ (env : PageEnv) (itemEnv : String → ItemOutcome) (mp : Option Nat)
        (fuel : Nat), env.feedVisible = false → env.urlIsPlace = false →
      discover env mp fuel = some .noResults ∧
        scrape_google_maps env itemEnv mp fuel = some []) ∧
    (∀ (env : PageEnv) (itemEnv : String → ItemOutcome) (mp : Option Nat)
        (fuel : Nat), env.feedVisible = false → env.urlIsPlace = true →
      discover env mp fuel = some (.found [env.url]) ∧
        scrape_google_maps env itemEnv mp fuel =
          some (extract_all itemEnv [env.url])) := by
  constructor <;>
    · intro env itemEnv mp fuel h1 h2
      constructor <;> simp [scrape_google_maps, discover, h1, h2]

/-- Witness for C4 amended, at the concrete no-feed and single-place
environments. -/
theorem discovery_no_feed_behavior_witness :
    envNoFeed.feedVisible = false ∧ envNoFeed.urlIsPlace = false ∧
    (discover envNoFeed (some 5) 3 = some .noResults ∧
      scrape_google_maps envNoFeed itemEnvW (some 5) 3 = some []) ∧
    envSingle.feedVisible = false ∧ envSingle.urlIsPlace = true ∧
    (discover envSingle (some 5) 3 = some (.found [envSingle.url]) ∧
      scrape_google_maps envSingle itemEnvW (some 5) 3 =
        some (extract_all itemEnvW [envSingle.url])) :=
  ⟨rfl, rfl, discovery_no_feed_behavior.1 envNoFeed itemEnvW (some 5) 3 rfl rfl,
    rfl, rfl, discovery_no_feed_behavior.2 envSingle itemEnvW (some 5) 3 rfl rfl⟩

/-- C8 counterexample: with the scrape finishing at 200s and persistence
needing another 200s, the 300s window has elapsed before extraction and
persistence have both completed, yet no timeout is raised and the
persistence calls do run: the wait_for deadline only covers the scrape. -/
theorem deadline_excludes_persistence_counterexample :
    SCRAPE_TIMEOUT < 200 + 200 ∧
    run_scrape_timed ⟨200, 200⟩ [] = ⟨.ok [], true⟩ :=
  ⟨by decide, rfl⟩

/-- C8 amended: when the deadline elapses before the scraping stage
completes, the orchestrator raises the 504 timeout and the persistence calls
never run, so nothing from the run is written; the deadline does not cover
the persistence stage itself. -/
theorem timeout_discards_and_skips_persistence (t : Timing)
    (records : List EntityRecord) (h : SCRAPE_TIMEOUT < t.scrapeDuration) :
    run_scrape_timed t records =
      ⟨.error (.http504 "Scraping request timed out after 5 minutes"),
        false⟩ := by
  unfold run_scrape_timed
  rw [if_pos h]

/-- Witness for C8 amended at a 301-second scrape. -/
theorem timeout_discards_and_skips_persistence_witness :
    SCRAPE_TIMEOUT < 301 ∧
    run_scrape_timed ⟨301, 0⟩ [] =
      ⟨.error (.http504 "Scraping request timed out after 5 minutes"),
        false⟩ :=
  ⟨by decide, timeout_discards_and_skips_persistence ⟨301, 0⟩ [] (by decide)⟩

/-- C3: a batch holding two records with the same place_id lands both rows
in one INSERT ... ON CONFLICT DO UPDATE statement, which PostgreSQL rejects:
the write raises instead of applying last-write-wins.  The intended
last-write-wins replacement does hold across separate statements, as the two
trailing conjuncts show. -/
theorem upsert_entities_duplicate_key_error :
    recA.place_id = recB.place_id ∧ recA ≠ recB ∧
    upsert_entities db0 [some recA, some recB] 250 =
      .error "ON CONFLICT DO UPDATE command cannot affect row a second time" ∧
    upsert_entities db0 [some recA] 250 =
      .ok (⟨[("p1", _to_row recA)], []⟩, 1) ∧
    upsert_entities ⟨[("p1", _to_row recA)], []⟩ [some recB] 250 =
      .ok (⟨[("p1", _to_row recB)], []⟩, 1) :=
  ⟨rfl, by decide, by rfl, by rfl, by rfl⟩

/-- C9: _coerce_int is total; int coercion keeps coercible values and maps
uncoercible ones (like the strings 4.5 and bad) to absent, and a single
record with an uncoercible rating is persisted with the rating absent
rather than failing the batch.  The spec scenario itself, with both same-key
records in one batch, fails with the duplicate-key statement error instead
of persisting. -/
theorem coerce_int_total_and_scenario :
    _coerce_int (.vStr "42") = some 42 ∧
    _coerce_int (.vStr "4.5") = none ∧
    _coerce_int (.vStr "bad") = none ∧
    _coerce_int .vNone = none ∧
    (_to_row recBad).google_rating = none ∧
    upsert_entities db0 [some recBad] 250 =
      .ok (⟨[("p1", _to_row recBad)], []⟩, 1) ∧
    upsert_entities db0 [some rec45, some recBad] 250 =
      .error "ON CONFLICT DO UPDATE command cannot affect row a second time" :=
  ⟨by decide, by decide, by decide, rfl, by decide, by rfl, by rfl⟩

/-- C2 counterexample: a nonempty record with no place_id is not dropped:
the batch [keyless, recA] writes the keyless record as a NULL-key row and
returns 2, not the count 1 of the other record alone. -/
theorem keyless_record_persisted_counterexample :
    keyless.place_id = none ∧
    upsert_entities db0 [some keyless, some recA] 250 =
      .ok (⟨[("p1", _to_row recA)], [_to_row keyless]⟩, 2) ∧
    (2 : Nat) ≠ 1 :=
  ⟨rfl, by rfl, by decide⟩

/-- C2 amended: upsert_entities drops only falsy (empty) records — such a
record is never persisted, never fails the batch, and leaves the other
records' count unchanged; a nonempty record lacking place_id is kept: it is
persisted as a row with an absent key and counts toward the returned
total. -/
theorem upsert_entities_drops_only_falsy :
    (∀ (db : EntitiesTable) (pre post : List (Option EntityRecord))
        (ps : Nat),
      upsert_entities db (pre ++ Option.none :: post) ps =
        upsert_entities db (pre ++ post) ps) ∧
    (∀ (db : EntitiesTable) (r : EntityRecord) (ps : Nat),
      r.place_id = none →
      upsert_entities db [some r] ps =
        .ok ({ db with unkeyed := db.unkeyed ++ [_to_row r] }, 1)) := by
  constructor
  · intro db pre post ps
    unfold upsert_entities
    simp [List.filterMap_append]
  · intro db r ps h
    have hrow : (_to_row r).place_id = none := h
    unfold upsert_entities
    simp [chunksOf, chunksOfF, runStatements, applyStmtRows, hrow]

/-- Witness for C2 amended: a falsy element changes nothing, and the
concrete keyless record is persisted unkeyed with count 1. -/
theorem upsert_entities_drops_only_falsy_witness :
    upsert_entities db0 ([] ++ Option.none :: []) 250 =
      upsert_entities db0 ([] ++ []) 250 ∧
    keyless.place_id = none ∧
    upsert_entities db0 [some keyless] 250 =
      .ok ({ db0 with unkeyed := db0.unkeyed ++ [_to_row keyless] }, 1) :=
  ⟨upsert_entities_drops_only_falsy.1 db0 [] [] 250, rfl,
    upsert_entities_drops_only_falsy.2 db0 keyless 250 rfl⟩

theorem seenStep_dropped {seen : List (String × Hist.HistRecord)}
    {ro : Option Hist.HistRecord}
    (h : ∀ r, ro = some r → Hist.sourceStr r = "") :
    Hist.seenStep seen ro = seen := by
  cases ro with
  | none => rfl
  | some r => simp [Hist.seenStep, h r rfl]

/-- C10: upsertRunSummary silently drops a record whose source is missing or
stringifies to empty before the dedup pass — it is never written and does
not change the returned count — and a batch in which every record is falsy
or sourceless returns 0 without opening a database connection at all. -/
theorem scrape_history_drops_sourceless :
    (∀ (db : Hist.HistTable) (pre post : List (Option Hist.HistRecord))
        (ro : Option Hist.HistRecord),
      (∀ r, ro = some r → Hist.sourceStr r = "") →
      Hist.upsert_scrape_history db (pre ++ ro :: post) =
        Hist.upsert_scrape_history db (pre ++ post)) ∧
    (∀ (db : Hist.HistTable) (records : List (Option Hist.HistRecord)),
      (∀ ro ∈ records, ∀ r, ro = some r → Hist.sourceStr r = "") →
      Hist.upsert_scrape_history db records = ⟨db, 0, false⟩) := by
  constructor
  · intro db pre post ro h
    have hseen : Hist.buildSeen (pre ++ ro :: post) =
        Hist.buildSeen (pre ++ post) := by
      unfold Hist.buildSeen
      rw [List.foldl_append, List.foldl_append, List.foldl_cons,
        seenStep_dropped h]
    unfold Hist.upsert_scrape_history
    rw [hseen]
  · intro db records h
    have hseen : Hist.buildSeen records = [] := by
      unfold Hist.buildSeen
      induction records with
      | nil => rfl
      | cons ro rest ih =>
        rw [List.foldl_cons, seenStep_dropped (h ro (by simp))]
        exact ih (fun x hx r hr => h x (by simp [hx]) r hr)
    unfold Hist.upsert_scrape_history
    rw [hseen]
    rfl

/-- Witness for C10: a batch of one falsy element and one empty-source
record returns 0 against the empty table without writing, and dropping a
falsy element leaves the call unchanged. -/
theorem scrape_history_drops_sourceless_witness :
    Hist.upsert_scrape_history histDb0 [Option.none, some emptySourceRec] =
      ⟨histDb0, 0, false⟩ ∧
    Hist.upsert_scrape_history histDb0 ([] ++ Option.none :: []) =
      Hist.upsert_scrape_history histDb0 ([] ++ []) :=
  ⟨scrape_history_drops_sourceless.2 histDb0 [Option.none, some emptySourceRec]
      (by
        intro ro hro r hr
        subst hr
        simp only [List.mem_cons, List.not_mem_nil, or_false] at hro
        rcases hro with h | h
        · cases h
        · cases h
          rfl),
    scrape_history_drops_sourceless.1 histDb0 [] [] Option.none
      (fun r hr => by cases hr)⟩

end GMaps
